import Mathlib

/-!
Shallow embedding of the validation proxy core of the repository
(package `validationproxy`): subject extraction from the
forwarded-certificate header, four-way subject authorization, identity
resolution through a TTL cache backed by an application getter, path-based
routing to one of three reverse proxies, and the per-destination request
transforms applied by each proxy's director.

External collaborators (the cache and the application getter) are passed in
as explicit functions; the side effects the handler performs on them (cache
lookups, getter calls, cache writes) are returned as explicit traces so
that claims about "no call is made" are statable.  A Go `panic` (the
out-of-range index in `extractSubject`) is modelled as `Option.none`.
-/

namespace ValidationProxy

/-- `CertificateInfoHeader` constant from the source. -/
def CertificateInfoHeader : String := "X-Forwarded-Client-Cert"

/-- `BEBEnabledPublishEndpoint` constant from the source. -/
def BEBEnabledPublishEndpoint : String := "/publish"

/-- Error codes of the `apperrors` package that this file uses. -/
inductive AppErrorCode where
  | internal
  | badRequest
  | forbidden
  | notFound
deriving DecidableEq, Repr

/-- An `apperrors.AppError`: a code together with its formatted message. -/
structure AppError where
  code : AppErrorCode
  message : String
deriving DecidableEq, Repr

namespace apperrors

def Internal (message : String) : AppError := ⟨.internal, message⟩

def BadRequest (message : String) : AppError := ⟨.badRequest, message⟩

def Forbidden (message : String) : AppError := ⟨.forbidden, message⟩

def NotFound (message : String) : AppError := ⟨.notFound, message⟩

end apperrors

/-- `v1alpha1.Authentication`. -/
structure Authentication where
  clientIds : List String
deriving DecidableEq, Repr

/-- `v1alpha1.CompassMetadata`. -/
structure CompassMetadata where
  authentication : Authentication
deriving DecidableEq, Repr

/-- `v1alpha1.ApplicationSpec`, restricted to the field the proxy reads;
`none` models a nil `CompassMetadata` pointer. -/
structure ApplicationSpec where
  compassMetadata : Option CompassMetadata
deriving DecidableEq, Repr

/-- `v1alpha1.Application`, restricted to the field the proxy reads. -/
structure Application where
  spec : ApplicationSpec
deriving DecidableEq, Repr

/-- go-cache's `cache.DefaultExpiration` sentinel duration (0), passed to
`Cache.Set` to request the cache's configured default TTL. -/
def DefaultExpiration : Int := 0

/-- The cache collaborator's `Get`, as the proxy handler sees it:
`none` models `found = false`. -/
def CacheGetter : Type := String → Option (List String)

/-- The `ApplicationGetter` collaborator's `Get`: `Except.error` carries the
error string the Kubernetes client returned. -/
def AppGetter : Type := String → Except String Application

/-- Result of a `getCompassMetadataClientIDs` run together with the traces
of the collaborator interactions it performed, in order. -/
structure ResolveOutcome where
  result : Except AppError (List String)
  cacheGets : List String
  getterCalls : List String
  cacheWrites : List (String × List String × Int)
deriving Repr

/-- `getClientIDsFromResource`: fetch the application and read its Compass
metadata client IDs; a nil `CompassMetadata` yields an empty list and no
error. -/
def getClientIDsFromResource (applicationGetter : AppGetter)
    (applicationName : String) : Except AppError (List String) :=
  match applicationGetter applicationName with
  | .error err =>
      .error (apperrors.Internal
        ("failed to get " ++ applicationName ++ " application: " ++ err))
  | .ok application =>
      match application.spec.compassMetadata with
      | none => .ok []
      | some compassMetadata => .ok compassMetadata.authentication.clientIds

/-- `getClientIDsFromCache`: look the application up in the cache; a miss
returns an empty list and `false`. -/
def getClientIDsFromCache (cacheGet : CacheGetter)
    (applicationName : String) : List String × Bool :=
  match cacheGet applicationName with
  | none => ([], false)
  | some clientIDs => (clientIDs, true)

/-- `getCompassMetadataClientIDs`: consult the cache first; on a miss call
the application getter, and on success write the result back to the cache
with the default expiration.  The traces record every collaborator call. -/
def getCompassMetadataClientIDs (cacheGet : CacheGetter)
    (applicationGetter : AppGetter) (applicationName : String) :
    ResolveOutcome :=
  let looked := getClientIDsFromCache cacheGet applicationName
  if looked.2 then
    ⟨.ok looked.1, [applicationName], [], []⟩
  else
    match getClientIDsFromResource applicationGetter applicationName with
    | .error err => ⟨.error err, [applicationName], [applicationName], []⟩
    | .ok applicationClientIDs =>
        ⟨.ok applicationClientIDs, [applicationName], [applicationName],
          [(applicationName, applicationClientIDs, DefaultExpiration)]⟩

/-- The literal part `Subject="` of the regex `Subject="(.*?)"` used by
`extractSubjects`. -/
def subjectPatternOpen : List Char := "Subject=\"".toList

/-- The lazy `(.*?)"` part of the regex at the current position: the
shortest run of characters up to a closing `"`.  Go's `.` does not match a
newline, so a newline before any closing quote means no match starts here.
Returns the capture and the remainder after the closing quote. -/
def captureToQuote : List Char → Option (List Char × List Char)
  | [] => none
  | c :: rest =>
      if c = '"' then some ([], rest)
      else if c = '\n' then none
      else (captureToQuote rest).map (fun p => (c :: p.1, p.2))

/-- The scanning loop of `findSubjectMatches`, with an explicit fuel so
the recursion is structural (every step consumes at least one character,
so `cs.length` fuel always suffices). -/
def findSubjectMatchesFuel : Nat → List Char → List (List String)
  | 0, _ => []
  | _ + 1, [] => []
  | fuel + 1, c :: rest =>
      if (c :: rest).take 9 = subjectPatternOpen then
        match captureToQuote ((c :: rest).drop 9) with
        | some (capture, remainder) =>
            [String.mk (subjectPatternOpen ++ capture ++ ['"']),
              String.mk capture] :: findSubjectMatchesFuel fuel remainder
        | none => findSubjectMatchesFuel fuel rest
      else findSubjectMatchesFuel fuel rest

/-- All non-overlapping leftmost matches of the regex `Subject="(.*?)"` in
the character list, each as the two-element submatch list
`[whole match, capture group 1]`.  This models
`regexp.FindAllStringSubmatch` specialised to the fixed pattern of
`extractSubjects`: at each position, if the literal `Subject="` starts
there and a closing quote follows on the same line, the lazy capture is
taken and scanning resumes after the match; otherwise scanning advances by
one character. -/
def findSubjectMatches (cs : List Char) : List (List String) :=
  findSubjectMatchesFuel cs.length cs

/-- `get`: bounds-checked indexing returning `""` out of range. -/
def get (array : List String) (index : Nat) : String :=
  if array.length > index then array.getD index "" else ""

/-- `extractSubjects`: collect the first capture group of every
`Subject="(.*?)"` match in the header value, appending only non-empty
captures. -/
def extractSubjects (certInfoData : String) : List String :=
  (findSubjectMatches certInfoData.toList).foldl
    (fun subjects subjectMatch =>
      let subject := get subjectMatch 1
      if subject != "" then subjects ++ [subject] else subjects)
    []

/-- A `pkix.Name`, restricted to the fields `parseSubject` populates. -/
structure PkixName where
  CommonName : String
  Country : List String
  Organization : List String
  OrganizationalUnit : List String
  Locality : List String
  Province : List String
deriving DecidableEq, Repr

/-- Go's `strings.Split` with a one-character separator, on character
lists (structural, so proofs can evaluate it; `strings.Split("", sep)`
is `[""]`). -/
def splitOnChar (sep : Char) : List Char → List (List Char)
  | [] => [[]]
  | c :: rest =>
      if c == sep then [] :: splitOnChar sep rest
      else
        match splitOnChar sep rest with
        | [] => [[c]]
        | seg :: segs => (c :: seg) :: segs

/-- The segment loop of `extractSubject`: each segment is split on `=` and
`result[parts[0]] = parts[1]` is executed.  When a segment has no `=`,
`parts` has a single element and the Go code's `parts[1]` is an
out-of-range index: `none` models that panic.  The map is modelled as a
total function defaulting to `""` (a Go map read of a missing key yields
the zero value). -/
def extractSubjectLoop : List String → (String → String) → Option (String → String)
  | [], result => some result
  | segment :: segments, result =>
      let parts := (splitOnChar '=' segment.toList).map String.mk
      if 2 ≤ parts.length then
        extractSubjectLoop segments
          (fun k => if k = parts.getD 0 "" then parts.getD 1 "" else result k)
      else none

/-- `extractSubject`: split the DN on `,` and fold the segments into the
attribute map. -/
def extractSubject (subject : String) : Option (String → String) :=
  extractSubjectLoop ((splitOnChar ',' subject.toList).map String.mk)
    (fun _ => "")

/-- `parseSubject`: build the `pkix.Name` from the attribute map; `none`
propagates the `extractSubject` panic. -/
def parseSubject (rawSubject : String) : Option PkixName :=
  (extractSubject rawSubject).map (fun subjectInfo =>
    { CommonName := subjectInfo "CN"
      Country := [subjectInfo "C"]
      Organization := [subjectInfo "O"]
      OrganizationalUnit := [subjectInfo "OU"]
      Locality := [subjectInfo "L"]
      Province := [subjectInfo "ST"] })

/-- `areStringsFilled`: every given string is non-empty. -/
def areStringsFilled (strs : List String) : Bool :=
  strs.all (fun str => str != "")

/-- `validateSubjectField` from `newSubjectValidator`: the subject field
holds exactly one value and it equals the expected one. -/
def validateSubjectField (subjectField : List String) (expectedValue : String) : Bool :=
  subjectField.length == 1 && subjectField.getD 0 "" == expectedValue

/-- `validateCommonNameWithAppName` from `newSubjectValidator`. -/
def validateCommonNameWithAppName (appName : String) (subject : PkixName) : Bool :=
  appName == subject.CommonName

/-- `validateCommonNameWithClientIDs` from `newSubjectValidator`. -/
def validateCommonNameWithClientIDs (applicationClientIDs : List String)
    (subject : PkixName) : Bool :=
  applicationClientIDs.any (fun id => subject.CommonName == id)

/-- `newSubjectValidator`: select one of four per-subject predicates from
whether client IDs exist and whether group and tenant are both set. -/
def newSubjectValidator (applicationClientIDs : List String)
    (appName group tenant : String) : PkixName → Bool :=
  if applicationClientIDs.length == 0 && !areStringsFilled [group, tenant] then
    validateCommonNameWithAppName appName
  else if applicationClientIDs.length == 0 && areStringsFilled [group, tenant] then
    fun subject =>
      validateCommonNameWithAppName appName subject &&
        validateSubjectField subject.Organization tenant &&
        validateSubjectField subject.OrganizationalUnit group
  else if applicationClientIDs.length != 0 && !areStringsFilled [group, tenant] then
    validateCommonNameWithClientIDs applicationClientIDs
  else if applicationClientIDs.length != 0 && areStringsFilled [group, tenant] then
    fun subject =>
      validateCommonNameWithClientIDs applicationClientIDs subject &&
        validateSubjectField subject.Organization tenant &&
        validateSubjectField subject.OrganizationalUnit group
  else
    fun _ => false

/-- The subject loop of `hasValidSubject`; `none` models a panic raised
while parsing a subject the loop reached. -/
def hasValidSubjectLoop (subjectValidator : PkixName → Bool) :
    List String → Option Bool
  | [] => some false
  | s :: rest =>
      match parseSubject s with
      | none => none
      | some parsedSubject =>
          if subjectValidator parsedSubject then some true
          else hasValidSubjectLoop subjectValidator rest

/-- `hasValidSubject`: some presented subject satisfies the selected
policy. -/
def hasValidSubject (subjects applicationClientIDs : List String)
    (appName group tenant : String) : Option Bool :=
  hasValidSubjectLoop
    (newSubjectValidator applicationClientIDs appName group tenant) subjects

/-- The three reverse proxies the handler owns. -/
inductive ProxyDest where
  | events
  | eventMesh
  | appRegistry
deriving DecidableEq, Repr

/-- The `proxyHandler` struct: what the constructor stores.  The mesh
destination path is kept here because the Go code bakes it into the mesh
proxy's director closure. -/
structure ProxyHandlerCfg where
  group : String
  tenant : String
  eventServicePathPrefixV1 : String
  eventServicePathPrefixV2 : String
  eventServiceHost : String
  eventMeshPathPrefix : String
  eventMeshHost : String
  isBEBEnabled : Bool
  appRegistryPathPrefix : String
  appRegistryHost : String
  eventMeshDestinationPath : String
deriving DecidableEq, Repr

/-- `NewProxyHandler`: build the handler configuration; the mesh flag is
derived from comparing the configured mesh destination path with
`BEBEnabledPublishEndpoint`. -/
def NewProxyHandler (group tenant eventServicePathPrefixV1
    eventServicePathPrefixV2 eventServiceHost eventMeshPathPrefix
    eventMeshHost eventMeshDestinationPath appRegistryPathPrefix
    appRegistryHost : String) : ProxyHandlerCfg :=
  let isBEBEnabled := eventMeshDestinationPath == BEBEnabledPublishEndpoint
  { group, tenant, eventServicePathPrefixV1, eventServicePathPrefixV2,
    eventServiceHost, eventMeshPathPrefix, eventMeshHost, isBEBEnabled,
    appRegistryPathPrefix, appRegistryHost, eventMeshDestinationPath }

/-- `strings.HasPrefix` on character lists, structural so proofs can
evaluate it. -/
def startsWithChars : List Char → List Char → Bool
  | _, [] => true
  | [], _ :: _ => false
  | c :: cs, p :: ps => c == p && startsWithChars cs ps

/-- Go's `strings.HasPrefix(s, pfx)`. -/
def hasPrefixGo (s pfx : String) : Bool :=
  startsWithChars s.toList pfx.toList

/-- `mapRequestToProxy`: ordered first-match routing over the configured
path prefixes. -/
def mapRequestToProxy (ph : ProxyHandlerCfg) (path : String) :
    Except AppError ProxyDest :=
  if hasPrefixGo path ph.eventServicePathPrefixV1 then .ok .events
  else if hasPrefixGo path ph.eventServicePathPrefixV2 then
    if ph.isBEBEnabled then .ok .eventMesh else .ok .events
  else if hasPrefixGo path ph.eventMeshPathPrefix then .ok .eventMesh
  else if hasPrefixGo path ph.appRegistryPathPrefix then .ok .appRegistry
  else .error (apperrors.NotFound
    "Could not determine destination host. Requested resource not found")

/-- The parts of an `http.Request` the proxy directors read or write. -/
structure Request where
  urlHost : String
  urlScheme : String
  urlPath : String
  host : String
  headers : List (String × String)
deriving DecidableEq, Repr

/-- `withRewriteBaseURL`: rewrite the request's URL path. -/
def withRewriteBaseURL (path : String) : Request → Request :=
  fun req => { req with urlPath := path }

/-- `withEmptyRequestHost`: clear the request's Host field so the Host
header is derived from the URL. -/
def withEmptyRequestHost : Request → Request :=
  fun req => { req with host := "" }

/-- `withHTTPScheme`: set the URL scheme to plain HTTP. -/
def withHTTPScheme : Request → Request :=
  fun req => { req with urlScheme := "http" }

/-- `withEmptyXFwdClientCert`: delete the forwarded-certificate header. -/
def withEmptyXFwdClientCert : Request → Request :=
  fun req =>
    { req with
        headers := req.headers.filter (fun kv => kv.1 != CertificateInfoHeader) }

/-- The director built by `createReverseProxy`: set the URL host to the
destination host, then apply the request options in order. -/
def createReverseProxyDirector (destinationHost : String)
    (reqOpts : List (Request → Request)) : Request → Request :=
  fun request =>
    reqOpts.foldl (fun req opt => opt req) { request with urlHost := destinationHost }

/-- Director of `eventsProxy` as built in `NewProxyHandler`. -/
def eventsProxyDirector (ph : ProxyHandlerCfg) : Request → Request :=
  createReverseProxyDirector ph.eventServiceHost
    [withEmptyRequestHost, withEmptyXFwdClientCert, withHTTPScheme]

/-- Director of `eventMeshProxy` as built in `NewProxyHandler`. -/
def eventMeshProxyDirector (ph : ProxyHandlerCfg) : Request → Request :=
  createReverseProxyDirector ph.eventMeshHost
    [withRewriteBaseURL ph.eventMeshDestinationPath, withEmptyRequestHost,
      withEmptyXFwdClientCert, withHTTPScheme]

/-- Director of `appRegistryProxy` as built in `NewProxyHandler`. -/
def appRegistryProxyDirector (ph : ProxyHandlerCfg) : Request → Request :=
  createReverseProxyDirector ph.appRegistryHost
    [withEmptyRequestHost, withHTTPScheme]

/-- The director belonging to a routed destination. -/
def destDirector (ph : ProxyHandlerCfg) : ProxyDest → Request → Request
  | .events => eventsProxyDirector ph
  | .eventMesh => eventMeshProxyDirector ph
  | .appRegistry => appRegistryProxyDirector ph

/-- What the handler did with the response. -/
inductive HandlerResult where
  | errorResponse (e : AppError)
  | panicked
  | proxied (dest : ProxyDest)
deriving DecidableEq, Repr

/-- A handler run: the outcome plus the collaborator-interaction traces. -/
structure ProxyRunEffects where
  result : HandlerResult
  cacheGets : List String
  getterCalls : List String
  cacheWrites : List (String × List String × Int)
deriving DecidableEq, Repr

/-- `ProxyAppConnectorRequests`: the per-request pipeline.  `certHeader`
is the raw forwarded-certificate header (`none` when absent; Go's
`Header.Get` turns absence into `""`), `appVar` the `{application}` path
variable (`none` when missing from the route). -/
def ProxyAppConnectorRequests (ph : ProxyHandlerCfg) (cacheGet : CacheGetter)
    (applicationGetter : AppGetter) (certHeader : Option String)
    (appVar : Option String) (path : String) : ProxyRunEffects :=
  let certInfoData := certHeader.getD ""
  if certInfoData == "" then
    ⟨.errorResponse (apperrors.Internal
      (CertificateInfoHeader ++ " header not found")), [], [], []⟩
  else
    let applicationName := appVar.getD ""
    if applicationName == "" then
      ⟨.errorResponse (apperrors.BadRequest "Application name not specified"),
        [], [], []⟩
    else
      let resolved := getCompassMetadataClientIDs cacheGet applicationGetter
        applicationName
      match resolved.result with
      | .error err =>
          ⟨.errorResponse (apperrors.Internal
            ("Failed to get Application ClientIds: " ++ err.message)),
            resolved.cacheGets, resolved.getterCalls, resolved.cacheWrites⟩
      | .ok applicationClientIDs =>
          let subjects := extractSubjects certInfoData
          match hasValidSubject subjects applicationClientIDs applicationName
              ph.group ph.tenant with
          | none =>
              ⟨.panicked, resolved.cacheGets, resolved.getterCalls,
                resolved.cacheWrites⟩
          | some valid =>
              if !valid then
                ⟨.errorResponse (apperrors.Forbidden "No valid subject found"),
                  resolved.cacheGets, resolved.getterCalls, resolved.cacheWrites⟩
              else
                match mapRequestToProxy ph path with
                | .error err =>
                    ⟨.errorResponse err, resolved.cacheGets,
                      resolved.getterCalls, resolved.cacheWrites⟩
                | .ok dest =>
                    ⟨.proxied dest, resolved.cacheGets, resolved.getterCalls,
                      resolved.cacheWrites⟩

/-- A sample handler configuration used by concrete witnesses, built by the
constructor with the mesh destination path `/publish`. -/
def sampleHandler : ProxyHandlerCfg :=
  NewProxyHandler "g1" "t1" "/v1/events" "/v2/events" "es-host" "/events"
    "mesh-host" "/publish" "/v1/metadata" "reg-host"

/-- Spec-side definition for the authorization refinement claim, written
from the policy table of the spec (§4.3): `hasClientIDs` and `hasScoping`
select one of four per-subject predicates; the organization and
organizational-unit comparisons demand an exact single-value match. -/
def specPolicyTable (identity : List String)
    (applicationName group tenant : String) (subject : PkixName) : Bool :=
  let hasClientIDs : Bool := decide (0 < identity.length)
  let hasScoping : Bool := group != "" && tenant != ""
  match hasClientIDs, hasScoping with
  | false, false => subject.CommonName == applicationName
  | false, true =>
      subject.CommonName == applicationName &&
        subject.Organization == [tenant] &&
        subject.OrganizationalUnit == [group]
  | true, false => identity.contains subject.CommonName
  | true, true =>
      identity.contains subject.CommonName &&
        subject.Organization == [tenant] &&
        subject.OrganizationalUnit == [group]

theorem all_filter_self {α : Type} (l : List α) (p : α → Bool) :
    (l.filter p).all p = true := by
  simp only [List.all_eq_true]
  intro a ha
  exact List.of_mem_filter ha

/-- C5 counterexample: on a cache miss whose application-getter call fails
with cause `boom` for application `app1`, the resolver's error message is
`failed to get app1 application: boom`, which is not the spec's
`failed to resolve identity for application app1: boom`. -/
theorem c5_error_context_counterexample :
    (getCompassMetadataClientIDs (fun _ => none) (fun _ => .error "boom")
        "app1").result =
      .error (apperrors.Internal "failed to get app1 application: boom") ∧
    apperrors.Internal "failed to get app1 application: boom" ≠
      apperrors.Internal
        "failed to resolve identity for application app1: boom" := by
  refine ⟨rfl, ?_⟩
  decide

/-- C5 (amended): on a cache miss, when the application getter fails the
resolver returns an Internal error whose message is
`failed to get <name> application: <cause>`, and writes nothing to the
cache. -/
theorem c5_resolver_failure_writes_nothing (cacheGet : CacheGetter)
    (applicationGetter : AppGetter) (name cause : String)
    (hmiss : cacheGet name = none)
    (hfail : applicationGetter name = .error cause) :
    getCompassMetadataClientIDs cacheGet applicationGetter name =
      ⟨.error (apperrors.Internal
          ("failed to get " ++ name ++ " application: " ++ cause)),
        [name], [name], []⟩ := by
  simp [getCompassMetadataClientIDs, getClientIDsFromCache,
    getClientIDsFromResource, hmiss, hfail]

theorem c5_resolver_failure_witness :
    getCompassMetadataClientIDs (fun _ => none) (fun _ => .error "boom")
        "app1" =
      ⟨.error (apperrors.Internal
          ("failed to get " ++ "app1" ++ " application: " ++ "boom")),
        ["app1"], ["app1"], []⟩ :=
  c5_resolver_failure_writes_nothing (fun _ => none) (fun _ => .error "boom")
    "app1" "boom" rfl rfl

/-- C6: on a cache miss, when the getter succeeds but the application has
no Compass metadata, the resolver returns an empty identity with no error
and writes that empty list to the cache with the default expiration. -/
theorem c6_empty_metadata_cached (cacheGet : CacheGetter)
    (applicationGetter : AppGetter) (name : String)
    (hmiss : cacheGet name = none)
    (hok : applicationGetter name = .ok ⟨⟨none⟩⟩) :
    getCompassMetadataClientIDs cacheGet applicationGetter name =
      ⟨.ok [], [name], [name], [(name, [], DefaultExpiration)]⟩ := by
  simp [getCompassMetadataClientIDs, getClientIDsFromCache,
    getClientIDsFromResource, hmiss, hok]

theorem c6_empty_metadata_witness :
    getCompassMetadataClientIDs (fun _ => none)
        (fun _ => .ok ⟨⟨none⟩⟩) "app1" =
      ⟨.ok [], ["app1"], ["app1"], [("app1", [], DefaultExpiration)]⟩ :=
  c6_empty_metadata_cached (fun _ => none) (fun _ => .ok ⟨⟨none⟩⟩)
    "app1" rfl rfl

/-- C9: the handler's mesh flag is exactly the comparison of the
configured mesh destination path against the literal `/publish`; any
other path yields a non-mesh-enabled handler. -/
theorem c9_isBEBEnabled_iff_publish_path (group tenant
    eventServicePathPrefixV1 eventServicePathPrefixV2 eventServiceHost
    eventMeshPathPrefix eventMeshHost eventMeshDestinationPath
    appRegistryPathPrefix appRegistryHost : String) :
    (NewProxyHandler group tenant eventServicePathPrefixV1
        eventServicePathPrefixV2 eventServiceHost eventMeshPathPrefix
        eventMeshHost eventMeshDestinationPath appRegistryPathPrefix
        appRegistryHost).isBEBEnabled = true ↔
      eventMeshDestinationPath = "/publish" := by
  simp [NewProxyHandler, BEBEnabledPublishEndpoint]

/-- C1 counterexample: the app-registry proxy's request transforms do not
remove the forwarded-certificate header: a request that carries it still
carries it after the director runs. -/
theorem c1_appRegistry_keeps_cert_header :
    ((appRegistryProxyDirector sampleHandler)
        ⟨"orig-host", "https", "/v1/metadata/x", "caller-host",
          [(CertificateInfoHeader, "cert-data")]⟩).headers =
      [(CertificateInfoHeader, "cert-data")] := by
  rfl

/-- C1 (amended): every destination's transforms clear the request Host
field and force the plain HTTP scheme; the forwarded-certificate header
is removed by the event-service and event-mesh transforms, while the
app-registry transforms leave the header list unchanged. -/
theorem c1_request_transforms (ph : ProxyHandlerCfg) (request : Request) :
    ((eventsProxyDirector ph request).host = "" ∧
      (eventsProxyDirector ph request).urlScheme = "http" ∧
      (eventsProxyDirector ph request).headers.all
        (fun kv => kv.1 != CertificateInfoHeader) = true) ∧
    ((eventMeshProxyDirector ph request).host = "" ∧
      (eventMeshProxyDirector ph request).urlScheme = "http" ∧
      (eventMeshProxyDirector ph request).headers.all
        (fun kv => kv.1 != CertificateInfoHeader) = true) ∧
    ((appRegistryProxyDirector ph request).host = "" ∧
      (appRegistryProxyDirector ph request).urlScheme = "http" ∧
      (appRegistryProxyDirector ph request).headers = request.headers) := by
  refine ⟨⟨rfl, rfl, ?_⟩, ⟨rfl, rfl, ?_⟩, rfl, rfl, rfl⟩ <;>
    exact all_filter_self request.headers _

/-- C8: the event-mesh director rewrites the outgoing URL path to the
configured fixed destination path regardless of the caller's path, and
neither the event-service nor the app-registry director touches the
path. -/
theorem c8_mesh_path_rewrite (ph : ProxyHandlerCfg) (request : Request) :
    (eventMeshProxyDirector ph request).urlPath =
        ph.eventMeshDestinationPath ∧
      (eventsProxyDirector ph request).urlPath = request.urlPath ∧
      (appRegistryProxyDirector ph request).urlPath = request.urlPath :=
  ⟨rfl, rfl, rfl⟩

theorem beq_comm_str (a b : String) : (a == b) = (b == a) := by
  by_cases h : a = b
  · subst h; rfl
  · rw [beq_eq_false_iff_ne.mpr h, beq_eq_false_iff_ne.mpr (fun hh => h hh.symm)]

theorem validateSubjectField_eq_single (subjectField : List String)
    (expectedValue : String) :
    validateSubjectField subjectField expectedValue =
      (subjectField == [expectedValue]) := by
  cases hb : subjectField == [expectedValue] with
  | true =>
      have he : subjectField = [expectedValue] := by simpa using hb
      subst he
      simp [validateSubjectField]
  | false =>
      match subjectField with
      | [] => rfl
      | [x] =>
          have hx : ¬x = expectedValue := by
            intro h
            subst h
            simp at hb
          simp [validateSubjectField, hx]
      | x :: y :: rest =>
          have hlen : ((x :: y :: rest).length == 1) = false := by
            rw [beq_eq_false_iff_ne]
            simp
          simp [validateSubjectField, hlen]

theorem newSubjectValidator_eq_spec (applicationClientIDs : List String)
    (appName group tenant : String) (subject : PkixName) :
    newSubjectValidator applicationClientIDs appName group tenant subject =
      specPolicyTable applicationClientIDs appName group tenant subject := by
  have hcontains : applicationClientIDs.contains subject.CommonName =
      validateCommonNameWithClientIDs applicationClientIDs subject := by
    rw [List.contains_eq_any_beq]
    rfl
  have hcn : (appName == subject.CommonName) =
      (subject.CommonName == appName) :=
    beq_comm_str appName subject.CommonName
  cases hgb : group != "" <;> cases htb : tenant != "" <;>
    cases applicationClientIDs <;>
      simp [newSubjectValidator, specPolicyTable, areStringsFilled,
        validateCommonNameWithAppName, validateSubjectField_eq_single,
        hcontains, hcn, hgb, htb] at hcontains hcn ⊢ <;>
      simp_all [validateCommonNameWithClientIDs]

theorem hasValidSubjectLoop_eq_any (subjectValidator : PkixName → Bool) :
    ∀ subjects : List String, (∀ s ∈ subjects, (parseSubject s).isSome) →
      hasValidSubjectLoop subjectValidator subjects =
        some (subjects.any (fun s =>
          ((parseSubject s).map subjectValidator).getD false)) := by
  intro subjects
  induction subjects with
  | nil => intro _; rfl
  | cons s rest ih =>
      intro hp
      obtain ⟨p, hpe⟩ :=
        Option.isSome_iff_exists.mp (hp s (List.mem_cons_self s rest))
      rw [List.any_cons]
      simp only [hasValidSubjectLoop, hpe, Option.map_some', Option.getD_some]
      by_cases hvp : subjectValidator p = true
      · simp [hvp]
      · simp only [Bool.not_eq_true] at hvp
        simp [hvp, ih (fun x hx => hp x (List.mem_cons_of_mem s hx))]

/-- C3: when every presented raw subject parses, authorization equals the
logical OR, over all subjects, of the one policy predicate the spec's
table selects from `hasClientIDs` and `hasScoping`; in particular the
empty subject list yields `some false`. -/
theorem c3_authorization_policy (subjects applicationClientIDs : List String)
    (appName group tenant : String)
    (hparse : ∀ s ∈ subjects, (parseSubject s).isSome) :
    hasValidSubject subjects applicationClientIDs appName group tenant =
      some (subjects.any (fun s =>
        ((parseSubject s).map
          (specPolicyTable applicationClientIDs appName group tenant)).getD
            false)) := by
  have hv : newSubjectValidator applicationClientIDs appName group tenant =
      specPolicyTable applicationClientIDs appName group tenant :=
    funext (newSubjectValidator_eq_spec applicationClientIDs appName group
      tenant)
  simp only [hasValidSubject]
  rw [hv]
  exact hasValidSubjectLoop_eq_any _ subjects hparse

theorem c3_authorization_policy_witness :
    hasValidSubject ["CN=app1"] [] "app1" "" "" =
      some ((["CN=app1"] : List String).any (fun s =>
        ((parseSubject s).map (specPolicyTable [] "app1" "" "")).getD
          false)) :=
  c3_authorization_policy ["CN=app1"] [] "app1" "" "" (by decide)

/-- C4: routing is an ordered first-match rule list: a v1-events path goes
to the event-service proxy; otherwise a v2-events path goes to the
event-mesh proxy exactly when the mesh flag is set and to the
event-service proxy otherwise; otherwise an event-mesh path goes to the
event-mesh proxy; otherwise an app-registry path goes to the app-registry
proxy; otherwise routing returns a NotFound error and no proxy. -/
theorem c4_mapRequestToProxy_first_match (ph : ProxyHandlerCfg)
    (path : String) :
    (hasPrefixGo path ph.eventServicePathPrefixV1 = true →
      mapRequestToProxy ph path = .ok .events) ∧
    (hasPrefixGo path ph.eventServicePathPrefixV1 = false →
      hasPrefixGo path ph.eventServicePathPrefixV2 = true →
      mapRequestToProxy ph path =
        .ok (if ph.isBEBEnabled then .eventMesh else .events)) ∧
    (hasPrefixGo path ph.eventServicePathPrefixV1 = false →
      hasPrefixGo path ph.eventServicePathPrefixV2 = false →
      hasPrefixGo path ph.eventMeshPathPrefix = true →
      mapRequestToProxy ph path = .ok .eventMesh) ∧
    (hasPrefixGo path ph.eventServicePathPrefixV1 = false →
      hasPrefixGo path ph.eventServicePathPrefixV2 = false →
      hasPrefixGo path ph.eventMeshPathPrefix = false →
      hasPrefixGo path ph.appRegistryPathPrefix = true →
      mapRequestToProxy ph path = .ok .appRegistry) ∧
    (hasPrefixGo path ph.eventServicePathPrefixV1 = false →
      hasPrefixGo path ph.eventServicePathPrefixV2 = false →
      hasPrefixGo path ph.eventMeshPathPrefix = false →
      hasPrefixGo path ph.appRegistryPathPrefix = false →
      mapRequestToProxy ph path = .error (apperrors.NotFound
        "Could not determine destination host. Requested resource not found")) := by
  refine ⟨?_, ?_, ?_, ?_, ?_⟩
  · intro h1
    simp [mapRequestToProxy, h1]
  · intro h1 h2
    by_cases hb : ph.isBEBEnabled <;> simp [mapRequestToProxy, h1, h2, hb]
  · intro h1 h2 h3
    simp [mapRequestToProxy, h1, h2, h3]
  · intro h1 h2 h3 h4
    simp [mapRequestToProxy, h1, h2, h3, h4]
  · intro h1 h2 h3 h4
    simp [mapRequestToProxy, h1, h2, h3, h4]

theorem c4_mapRequestToProxy_witness :
    mapRequestToProxy sampleHandler "/v1/events/x" = .ok .events ∧
    mapRequestToProxy sampleHandler "/v2/events/x" =
      .ok (if sampleHandler.isBEBEnabled then .eventMesh else .events) ∧
    mapRequestToProxy sampleHandler "/events/x" = .ok .eventMesh ∧
    mapRequestToProxy sampleHandler "/v1/metadata/x" = .ok .appRegistry ∧
    mapRequestToProxy sampleHandler "/other" = .error (apperrors.NotFound
      "Could not determine destination host. Requested resource not found") :=
  ⟨(c4_mapRequestToProxy_first_match sampleHandler "/v1/events/x").1
      (by decide),
    (c4_mapRequestToProxy_first_match sampleHandler "/v2/events/x").2.1
      (by decide) (by decide),
    (c4_mapRequestToProxy_first_match sampleHandler "/events/x").2.2.1
      (by decide) (by decide) (by decide),
    (c4_mapRequestToProxy_first_match sampleHandler "/v1/metadata/x").2.2.2.1
      (by decide) (by decide) (by decide) (by decide),
    (c4_mapRequestToProxy_first_match sampleHandler "/other").2.2.2.2
      (by decide) (by decide) (by decide) (by decide)⟩

/-- C7: a missing or empty forwarded-certificate header fails with an
Internal error before any cache lookup, getter call, cache write, or
proxy dispatch; with the header present, a missing or empty application
path variable fails with a BadRequest error under the same no-call
guarantee. -/
theorem c7_early_failures (ph : ProxyHandlerCfg) (cacheGet : CacheGetter)
    (applicationGetter : AppGetter) (certHeader appVar : Option String)
    (path : String) :
    (certHeader.getD "" = "" →
      ProxyAppConnectorRequests ph cacheGet applicationGetter certHeader
          appVar path =
        ⟨.errorResponse (apperrors.Internal
          (CertificateInfoHeader ++ " header not found")), [], [], []⟩) ∧
    (certHeader.getD "" ≠ "" → appVar.getD "" = "" →
      ProxyAppConnectorRequests ph cacheGet applicationGetter certHeader
          appVar path =
        ⟨.errorResponse (apperrors.BadRequest
          "Application name not specified"), [], [], []⟩) := by
  constructor
  · intro h1
    simp [ProxyAppConnectorRequests, h1]
  · intro h1 h2
    simp [ProxyAppConnectorRequests, h1, h2]

theorem c7_early_failures_witness :
    ProxyAppConnectorRequests sampleHandler (fun _ => none)
        (fun _ => .error "down") none (some "app1") "/v1/events/x" =
      ⟨.errorResponse (apperrors.Internal
        (CertificateInfoHeader ++ " header not found")), [], [], []⟩ ∧
    ProxyAppConnectorRequests sampleHandler (fun _ => none)
        (fun _ => .error "down") (some "Subject=\"CN=app1\"") none
        "/v1/events/x" =
      ⟨.errorResponse (apperrors.BadRequest
        "Application name not specified"), [], [], []⟩ :=
  ⟨(c7_early_failures sampleHandler (fun _ => none) (fun _ => .error "down")
      none (some "app1") "/v1/events/x").1 rfl,
    (c7_early_failures sampleHandler (fun _ => none) (fun _ => .error "down")
      (some "Subject=\"CN=app1\"") none "/v1/events/x").2 (by decide) rfl⟩

/-- C2 (the code evaluated at the failing input): the raw subject
`CN=app1,malformed` has a segment without `=`; `extractSubject` and
`parseSubject` hit the out-of-range index of the Go code (modelled
`none`), and a request presenting that subject makes the handler
pipeline panic instead of treating the segment as contributing no
attribute. -/
theorem c2_malformed_segment_panics :
    extractSubject "CN=app1,malformed" = none ∧
    parseSubject "CN=app1,malformed" = none ∧
    (ProxyAppConnectorRequests sampleHandler (fun _ => some [])
        (fun _ => .error "unused") (some "Subject=\"CN=app1,malformed\"")
        (some "app1") "/v1/events/x").result = .panicked :=
  ⟨rfl, rfl, rfl⟩

theorem extractSubjects_foldl_all_ne (subjectMatches : List (List String))
    (acc : List String) (hacc : acc.all (fun s => s != "") = true) :
    (subjectMatches.foldl (fun subjects subjectMatch =>
      let subject := get subjectMatch 1
      if subject != "" then subjects ++ [subject] else subjects) acc).all
      (fun s => s != "") = true := by
  induction subjectMatches generalizing acc with
  | nil => exact hacc
  | cons m rest ih =>
      rw [List.foldl_cons]
      apply ih
      by_cases hm : get m 1 = ""
      · simpa [hm] using hacc
      · simp [hm, List.all_append, hacc]

/-- C10: every element of `extractSubjects`' result is a non-empty
string: a `Subject=""` occurrence with empty inner content is dropped
rather than contributing an empty subject. -/
theorem c10_subjects_non_empty (certInfoData : String) :
    (extractSubjects certInfoData).all (fun subject => subject != "") = true :=
  extractSubjects_foldl_all_ne (findSubjectMatches certInfoData.toList) []
    rfl

end ValidationProxy
